import Mathlib

/-!
Formal model of the RetailPriceFetch pipeline (`amazon_price_fetch` package).

Each Python module that the verified claims touch is shallowly embedded as
executable Lean definitions:

* `fetch/rate_limiter.py`  → `RateLimiter` namespace (token bucket over ℚ;
  Python floats are modelled as exact rationals, wall-clock reads as explicit
  nonnegative elapsed-time inputs);
* `utils/validators.py`    → `Validators` namespace;
* `pipeline/url_builder.py`→ `UrlBuilder` namespace (percent-encoding and
  query-string parsing embedded character by character for ASCII input);
* `parse/*.py`             → `Parse` namespace (a result container element is
  abstracted as the record of what the fixed CSS selectors return on it);
* `pipeline/search_service.py` → `Search` namespace (page fetch outcomes and
  the storage backend are run inputs; wall-clock duration and construction
  timestamps are outside the functional model and omitted from the metadata);
* `utils/cache.py` / `fetch/http_client.py` → `Caching` namespace (the cache
  directory is modelled as an association list from URL key to timestamped
  entry; the md5 file-name hash is abstracted as keying by the URL itself).
-/

namespace PyStr

/-- The characters Python's `str.strip()` removes. -/
def isPySpace (c : Char) : Bool :=
  c = ' ' || c = '\t' || c = '\n' || c = '\r' || c = '\x0b' || c = '\x0c'

/-- `str.strip()`: drop leading and trailing whitespace. -/
def strip (s : String) : String :=
  ⟨((s.data.dropWhile isPySpace).reverse.dropWhile isPySpace).reverse⟩

/-- `str.lower()` (ASCII case folding; every string this pipeline matches
case-insensitively is ASCII). -/
def lower (s : String) : String := ⟨s.data.map Char.toLower⟩

/-- Contiguous-sublist test on character lists. -/
def isSubList (pat : List Char) : List Char → Bool
  | [] => pat.isEmpty
  | c :: rest => pat.isPrefixOf (c :: rest) || isSubList pat rest

/-- `pat in s` — also the behaviour of `re.search(pat, s)` for the literal,
metacharacter-free patterns used by this code base. -/
def containsSub (s pat : String) : Bool := isSubList pat.data s.data

end PyStr

namespace Validators

/-- The distinct `ValidationError` messages raised by `utils/validators.py`. -/
inductive ValidationFailure
  | emptyQuery
  | queryTooLong
  | dangerousQuery
  | pagesTooSmall
  | pagesTooLarge
deriving Repr, DecidableEq

/-- `dangerous_patterns` of `validate_query` (literal patterns, searched
case-insensitively). -/
def dangerousPatterns : List String :=
  ["<script", "javascript:", "onload=", "onerror="]

/-- `re.search(pattern, query, re.IGNORECASE)` over the literal denylist:
case-insensitive substring test. -/
def hasDangerous (q : String) : Bool :=
  dangerousPatterns.any fun p => PyStr.containsSub (PyStr.lower q) p

/-- `validate_query`: reject empty input, strip, reject when the stripped
query is empty, longer than 200 characters, or matches the denylist;
otherwise return the stripped query. -/
def validateQuery (q : String) : Except ValidationFailure String :=
  if q = "" then .error .emptyQuery
  else
    let q := PyStr.strip q
    if q = "" then .error .emptyQuery
    else if 200 < q.length then .error .queryTooLong
    else if hasDangerous q then .error .dangerousQuery
    else .ok q

/-- `validate_pages`: `pages < 1` is rejected; a truthy `max_pages` (present
and nonzero, matching Python truthiness) bounds `pages` from above. -/
def validatePages (pages : Int) (maxPages : Option Int) :
    Except ValidationFailure Int :=
  if pages < 1 then .error .pagesTooSmall
  else
    match maxPages with
    | some m => if m ≠ 0 ∧ m < pages then .error .pagesTooLarge else .ok pages
    | none => .ok pages

end Validators

namespace UrlBuilder

/-- Characters `urllib.parse.quote(s, safe="/")` leaves unescaped:
`_ALWAYS_SAFE` (ASCII letters, digits, `_.-~`) plus the default safe `/`. -/
def quoteSafeChar (c : Char) : Bool :=
  ('a' ≤ c && c ≤ 'z') || ('A' ≤ c && c ≤ 'Z') || ('0' ≤ c && c ≤ '9') ||
    c = '_' || c = '.' || c = '-' || c = '~' || c = '/'

/-- Upper-case hex digit of a nibble. -/
def hexUpper (n : Nat) : Char :=
  if n < 10 then Char.ofNat ('0'.toNat + n) else Char.ofNat ('A'.toNat + n - 10)

/-- UTF-8 bytes of one code point (as `quote` percent-encodes them). -/
def utf8Bytes (c : Char) : List Nat :=
  let n := c.toNat
  if n < 0x80 then [n]
  else if n < 0x800 then [0xC0 + n / 64, 0x80 + n % 64]
  else if n < 0x10000 then
    [0xE0 + n / 4096, 0x80 + (n / 64) % 64, 0x80 + n % 64]
  else
    [0xF0 + n / 262144, 0x80 + (n / 4096) % 64, 0x80 + (n / 64) % 64,
      0x80 + n % 64]

/-- `%XX` escape of one byte. -/
def pctByte (b : Nat) : List Char := ['%', hexUpper (b / 16), hexUpper (b % 16)]

/-- `urllib.parse.quote(s, safe="/")`. -/
def quoteStr (s : String) : String :=
  ⟨s.data.flatMap fun c =>
    if quoteSafeChar c then [c] else (utf8Bytes c).flatMap pctByte⟩

/-- `urllib.parse.urlencode(params, quote_via=quote)`: `quote` each key and
value, join `k=v` pairs with `&`, in insertion order. -/
def urlencode (params : List (String × String)) : String :=
  String.intercalate "&" (params.map fun kv => quoteStr kv.1 ++ "=" ++ quoteStr kv.2)

/-- `base_url.rstrip("/")`. -/
def rstripSlashes (s : String) : String :=
  ⟨(s.data.reverse.dropWhile (· = '/')).reverse⟩

/-- The keyword filters accepted by `build_search_url` /
`_process_filters` (prices arrive as numbers and are `str()`-ed). -/
structure Filters where
  min_price : Option Int := none
  max_price : Option Int := none
  sort_by : Option String := none
  category : Option String := none
  brand : Option String := none
  condition : Option String := none
deriving Repr, DecidableEq

/-- `dict` insert-or-overwrite: an existing key keeps its position, a new
key is appended. -/
def upsert (l : List (String × String)) (k v : String) :
    List (String × String) :=
  if l.any (fun kv => kv.1 = k) then
    l.map fun kv => if kv.1 = k then (k, v) else kv
  else l ++ [(k, v)]

/-- `sort_mapping` of `_process_filters`. -/
def sortMapping : List (String × String) :=
  [("relevance", "relevanceblender"), ("price_low_high", "price-asc-rank"),
    ("price_high_low", "price-desc-rank"), ("newest", "date-desc-rank"),
    ("featured", "featured-rank")]

/-- `condition_mapping` of `_process_filters`. -/
def conditionMapping : List (String × String) :=
  [("new", "p_n_condition-type:2224371011"),
    ("used", "p_n_condition-type:2224372011"),
    ("refurbished", "p_n_condition-type:2224373011")]

/-- `_process_filters`: build the filter parameter dict in source order;
an unrecognized `condition` is silently dropped. -/
def processFilters (f : Filters) : List (String × String) :=
  let ps : List (String × String) := []
  let ps := match f.min_price with
    | some p => upsert ps "low-price" (toString p)
    | none => ps
  let ps := match f.max_price with
    | some p => upsert ps "high-price" (toString p)
    | none => ps
  let ps := match f.sort_by with
    | some sb => upsert ps "s" ((sortMapping.lookup sb).getD "relevanceblender")
    | none => ps
  let ps := match f.category with
    | some c => upsert ps "i" c
    | none => ps
  let ps := match f.brand with
    | some b => upsert ps "rh" ("p_89:" ++ b)
    | none => ps
  let ps := match f.condition with
    | some c =>
      match conditionMapping.lookup c with
      | some code => upsert ps "rh" code
      | none => ps
    | none => ps
  ps

/-- `build_search_url`: validate the query, then produce
`base/s?<urlencoded params>` with `k`, `page` and the processed filters.
A pure function — it performs no network access. -/
def buildSearchUrl (query : String) (page : Int) (baseUrl : String)
    (filters : Filters) : Except Validators.ValidationFailure String := do
  let q ← Validators.validateQuery query
  let base := rstripSlashes baseUrl
  let params : List (String × String) := [("k", q), ("page", toString page)]
  let params := (processFilters filters).foldl
    (fun ps kv => upsert ps kv.1 kv.2) params
  return base ++ "/s?" ++ urlencode params

/-- `str.split(sep)` keeping empty parts. -/
def splitChar (sep : Char) : List Char → List (List Char)
  | [] => [[]]
  | c :: rest =>
    match splitChar sep rest with
    | [] => if c = sep then [[], []] else [[c]]
    | h :: t => if c = sep then [] :: h :: t else (c :: h) :: t

/-- `str.split(sep, 1)`: split at the first occurrence, `none` when the
separator is absent. -/
def splitFirstChar (sep : Char) : List Char → Option (List Char × List Char)
  | [] => none
  | c :: rest =>
    if c = sep then some ([], rest)
    else
      match splitFirstChar sep rest with
      | none => none
      | some (a, b) => some (c :: a, b)

/-- Value of a hex digit. -/
def hexVal? (c : Char) : Option Nat :=
  if '0' ≤ c ∧ c ≤ '9' then some (c.toNat - '0'.toNat)
  else if 'a' ≤ c ∧ c ≤ 'f' then some (c.toNat - 'a'.toNat + 10)
  else if 'A' ≤ c ∧ c ≤ 'F' then some (c.toNat - 'A'.toNat + 10)
  else none

/-- `urllib.parse.unquote`: decode `%XX` escapes, keep a malformed `%`
literally.  Each decoded byte becomes one character — exact for the ASCII
data this pipeline round-trips. -/
def unquoteChars : List Char → List Char
  | [] => []
  | '%' :: a :: b :: rest =>
    match hexVal? a, hexVal? b with
    | some ha, some hb => Char.ofNat (16 * ha + hb) :: unquoteChars rest
    | _, _ => '%' :: unquoteChars (a :: b :: rest)
  | c :: rest => c :: unquoteChars rest

/-- `urllib.parse.unquote_plus`: `+` means space, then unquote. -/
def unquotePlus (s : String) : String :=
  ⟨unquoteChars (s.data.map fun c => if c = '+' then ' ' else c)⟩

/-- `urllib.parse.parse_qsl(qs)` with the defaults the code relies on:
split on `&`, keep pairs that have an `=` and a non-blank value,
`unquote_plus` names and values. -/
def parseQsl (qs : String) : List (String × String) :=
  (splitChar '&' qs.data).filterMap fun nv =>
    if nv.isEmpty then none
    else
      match splitFirstChar '=' nv with
      | none => none
      | some (n, v) =>
        if v.isEmpty then none else some (unquotePlus ⟨n⟩, unquotePlus ⟨v⟩)

/-- `parse_qs(qs)[key][0]`: the first value bound to `key`. -/
def firstValue (pairs : List (String × String)) (key : String) :
    Option String :=
  (pairs.find? fun kv => kv.1 = key).map (·.2)

/-- The `query` component `urlparse` reports: the part after the first `?`
of the pre-fragment URL. -/
def urlQueryPart (url : String) : String :=
  let preFrag := url.data.takeWhile (· ≠ '#')
  match splitFirstChar '?' preFrag with
  | none => ""
  | some (_, q) => ⟨q⟩

/-- `extract_query_from_url`: read `k`, else `keywords`, else
`field-keywords`. -/
def extractQueryFromUrl (url : String) : Option String :=
  let params := parseQsl (urlQueryPart url)
  match firstValue params "k" with
  | some v => some v
  | none =>
    match firstValue params "keywords" with
    | some v => some v
    | none => firstValue params "field-keywords"

end UrlBuilder

namespace RateLimiter

/-- State of `TokenBucketRateLimiter`: the token count.  `rate_per_second`
and `burst_capacity` are fixed at construction and passed separately;
`last_refill` is replaced by feeding each call the elapsed time since the
previous one. -/
structure Bucket where
  tokens : ℚ
deriving Repr, DecidableEq

/-- `_refill_tokens`: `tokens = min(tokens + elapsed * rate_per_second,
burst_capacity)`. -/
def refill (rate cap : ℚ) (b : Bucket) (elapsed : ℚ) : Bucket :=
  ⟨min (b.tokens + elapsed * rate) cap⟩

/-- `acquire(n)`: refill, then subtract `n` tokens when at least `n` are
available, else leave the count unchanged (returning `False`).  One loop
iteration of `wait(n)` performs exactly the same state change, so a trace of
`acquire`/`wait` calls is a list of these steps. -/
def step (rate cap : ℚ) (b : Bucket) (op : ℚ × ℕ) : Bucket :=
  if (op.2 : ℚ) ≤ (refill rate cap b op.1).tokens
  then ⟨(refill rate cap b op.1).tokens - op.2⟩
  else refill rate cap b op.1

/-- Initial state: `self.tokens = float(self.burst_capacity)`. -/
def initBucket (cap : ℚ) : Bucket := ⟨cap⟩

/-- All states visited by a trace of operations, the initial one included. -/
def trace (rate cap : ℚ) (ops : List (ℚ × ℕ)) : List Bucket :=
  List.scanl (step rate cap) (initBucket cap) ops

/-- A trace is admissible when every elapsed time is nonnegative. -/
def admissible (ops : List (ℚ × ℕ)) : Prop := ∀ op ∈ ops, 0 ≤ op.1

instance (ops : List (ℚ × ℕ)) : Decidable (admissible ops) := by
  unfold admissible; infer_instance

theorem refill_bounds (rate cap : ℚ) (b : Bucket) (e : ℚ)
    (hr : 0 ≤ rate) (hc : 0 ≤ cap) (he : 0 ≤ e) (hb : 0 ≤ b.tokens) :
    0 ≤ (refill rate cap b e).tokens ∧ (refill rate cap b e).tokens ≤ cap := by
  unfold refill
  exact ⟨le_min (by positivity) hc, min_le_right _ _⟩

theorem step_bounds (rate cap : ℚ) (b : Bucket) (op : ℚ × ℕ)
    (hr : 0 ≤ rate) (hc : 0 ≤ cap) (he : 0 ≤ op.1)
    (hb : 0 ≤ b.tokens ∧ b.tokens ≤ cap) :
    0 ≤ (step rate cap b op).tokens ∧ (step rate cap b op).tokens ≤ cap := by
  have h1 := refill_bounds rate cap b op.1 hr hc he hb.1
  unfold step
  by_cases hn : ((op.2 : ℚ) ≤ (refill rate cap b op.1).tokens)
  · rw [if_pos hn]
    have hnn : (0 : ℚ) ≤ (op.2 : ℚ) := Nat.cast_nonneg _
    exact ⟨by simpa using sub_nonneg.mpr hn, by simp only; linarith [h1.2]⟩
  · rw [if_neg hn]
    exact h1

end RateLimiter

/-- **C5** — Token bucket invariant (`fetch/rate_limiter.py`): starting from
the initial state (`tokens = burst_capacity`), for every finite sequence of
`acquire(n)` / `wait(n)` steps with arbitrary nonnegative elapsed time
between calls, the token count after every refill-and-acquire step — every
state on the trace — satisfies `0 ≤ tokens ≤ burst_capacity`; and the
intermediate count right after a refill obeys the same bounds
(`refill_bounds` plus the trace invariant).  Rate and capacity are the
nonnegative values the constructor derives from the configured
`rate_per_minute` / `burst_capacity`. -/
theorem C5_token_bucket_bounds (rate cap : ℚ) (ops : List (ℚ × ℕ))
    (hr : 0 ≤ rate) (hc : 0 ≤ cap) (hops : RateLimiter.admissible ops) :
    ∀ b ∈ RateLimiter.trace rate cap ops,
      0 ≤ b.tokens ∧ b.tokens ≤ cap := by
  unfold RateLimiter.trace
  have general :
      ∀ (l : List (ℚ × ℕ)) (b0 : RateLimiter.Bucket),
        (∀ op ∈ l, 0 ≤ op.1) → 0 ≤ b0.tokens ∧ b0.tokens ≤ cap →
        ∀ b ∈ List.scanl (RateLimiter.step rate cap) b0 l,
          0 ≤ b.tokens ∧ b.tokens ≤ cap := by
    intro l
    induction l with
    | nil =>
        intro b0 _ hb0 b hb
        simp only [List.scanl_nil, List.mem_singleton] at hb
        simpa [hb] using hb0
    | cons op rest ih =>
        intro b0 hadm hb0 b hb
        simp only [List.scanl_cons, List.cons_append, List.nil_append,
          List.mem_cons] at hb
        rcases hb with rfl | hb
        · exact hb0
        · exact ih (RateLimiter.step rate cap b0 op)
            (fun o ho => hadm o (List.mem_cons_of_mem _ ho))
            (RateLimiter.step_bounds rate cap b0 op hr hc
              (hadm op (List.mem_cons_self _ _)) hb0) b hb
  exact general ops (RateLimiter.initBucket cap) hops
    ⟨hc, le_refl _⟩

/-- Witness for C5 at a concrete trace: rate 1 token per second, capacity 2,
operations `wait(1)` after 0 s, `acquire(2)` after 1 s, `acquire(1)` after
10 s.  Every state on the trace stays within `[0, 2]`. -/
theorem C5_token_bucket_bounds_witness :
    (0 : ℚ) ≤ (1 : ℚ) ∧ (0 : ℚ) ≤ (2 : ℚ) ∧
      RateLimiter.admissible [(0, 1), (1, 2), (10, 1)] ∧
      ∀ b ∈ RateLimiter.trace 1 2 [(0, 1), (1, 2), (10, 1)],
        0 ≤ b.tokens ∧ b.tokens ≤ 2 :=
  ⟨by decide, by decide, by decide,
    C5_token_bucket_bounds 1 2 [(0, 1), (1, 2), (10, 1)]
      (by decide) (by decide) (by decide)⟩

set_option maxRecDepth 8000 in
/-- **C7** — URL round-trip (`pipeline/url_builder.py`): building the search
URL for query `"wireless mouse"`, page 1, base `"https://www.amazon.com"`
yields `https://www.amazon.com/s?k=wireless%20mouse&page=1`, and
`extract_query_from_url` applied to that URL returns the original query text
`"wireless mouse"`. -/
theorem C7_url_roundtrip :
    UrlBuilder.buildSearchUrl "wireless mouse" 1 "https://www.amazon.com"
        {} = .ok "https://www.amazon.com/s?k=wireless%20mouse&page=1" ∧
      UrlBuilder.extractQueryFromUrl
        "https://www.amazon.com/s?k=wireless%20mouse&page=1" =
        some "wireless mouse" :=
  ⟨rfl, rfl⟩

/-- C8, counterexample: a query of one leading space followed by 200 `a`s is
201 characters long — longer than 200 characters, not whitespace-only after
stripping, and free of denylist patterns — yet `build_search_url` accepts
it, because `validate_query` measures the length only after stripping.
This refutes the claim that every query longer than 200 characters is
rejected with a `ValidationError`. -/
def longPaddedQuery : String := ⟨' ' :: List.replicate 200 'a'⟩

set_option maxRecDepth 8000 in
theorem C8_counterexample :
    200 < longPaddedQuery.length ∧
      PyStr.strip longPaddedQuery ≠ "" ∧
      Validators.hasDangerous longPaddedQuery = false ∧
      (UrlBuilder.buildSearchUrl longPaddedQuery 1 "https://www.amazon.com"
        {}).isOk = true := by
  refine ⟨by decide, by decide, by decide, ?_⟩
  rfl

/-- **C8** (amended) — Sanitization gate (`utils/validators.py`,
`pipeline/url_builder.py`): for every query whose *stripped* form is empty,
longer than 200 characters, or matches a denylist pattern (`<script`,
`javascript:`, `onload=`, `onerror=`, case-insensitively),
`build_search_url` fails with a `ValidationError`.  The rejection happens
inside `validate_query`, before the URL is even assembled, and
`build_search_url` is a pure function that performs no network access; in
particular `build(query="<script>alert(1)</script>")` fails this way.
(The original claim measured the 200-character bound on the raw query; the
code measures it after stripping — see `C8_counterexample`.) -/
theorem C8_sanitization_gate (q : String) (page : Int) (base : String)
    (f : UrlBuilder.Filters)
    (h : PyStr.strip q = "" ∨ 200 < (PyStr.strip q).length ∨
      Validators.hasDangerous (PyStr.strip q) = true) :
    ∃ e, UrlBuilder.buildSearchUrl q page base f = .error e := by
  have hv : ∃ e, Validators.validateQuery q = .error e := by
    unfold Validators.validateQuery
    by_cases h0 : q = ""
    · exact ⟨.emptyQuery, by simp [h0]⟩
    · rcases h with h1 | h2 | h3
      · exact ⟨.emptyQuery, by simp [h0, h1]⟩
      · have hne : PyStr.strip q ≠ "" := by
          intro hemp; rw [hemp] at h2; simp at h2
        exact ⟨.queryTooLong, by simp [h0, hne, h2]⟩
      · by_cases h1 : PyStr.strip q = ""
        · exact ⟨.emptyQuery, by simp [h0, h1]⟩
        · by_cases h2 : 200 < (PyStr.strip q).length
          · exact ⟨.queryTooLong, by simp [h0, h1, h2]⟩
          · exact ⟨.dangerousQuery, by simp [h0, h1, h2, h3]⟩
  obtain ⟨e, he⟩ := hv
  exact ⟨e, by simp [UrlBuilder.buildSearchUrl, he]⟩

/-- Witness for C8 at the claim's concrete input:
`<script>alert(1)</script>` matches the denylist after stripping, so
`build_search_url` fails with a validation error. -/
theorem C8_sanitization_gate_witness :
    Validators.hasDangerous (PyStr.strip "<script>alert(1)</script>") = true ∧
      ∃ e, UrlBuilder.buildSearchUrl "<script>alert(1)</script>" 1
        "https://www.amazon.com" {} = .error e :=
  ⟨by decide, C8_sanitization_gate "<script>alert(1)</script>" 1
    "https://www.amazon.com" {} (Or.inr (Or.inr (by decide)))⟩

namespace Parse

/-- `models.Product` (pydantic, frozen): the four required fields plus the
optional ones.  `timestamp` is wall-clock at construction and outside the
functional model; `rating` keeps the numeric text the regex matched (the
`float()` conversion never fails on it). -/
structure Product where
  title : String
  url : String
  asin_code : String
  image_url : String
  price : Option String := none
  currency : String := "USD"
  rating : Option String := none
  review_count : Option Int := none
  availability : Option String := none
  seller : Option String := none
  sponsored : Bool := false
deriving Repr, DecidableEq

/-- One raw field map as produced by `_parse_product_element` or handed to
`to_product_models`: every field may be absent (`none`) or present; a
present-but-empty string is falsy for the required-field checks, exactly as
in Python. -/
structure RawItem where
  title : Option String := none
  url : Option String := none
  asin_code : Option String := none
  image_url : Option String := none
  price : Option String := none
  currency : Option String := none
  rating : Option String := none
  review_count : Option Int := none
  availability : Option String := none
  seller : Option String := none
  sponsored : Bool := false
deriving Repr, DecidableEq

/-- Python truthiness of `item.get(field)` for a string field. -/
def truthy (o : Option String) : Bool :=
  match o with
  | some s => s != ""
  | none => false

/-- The structured errors of `parse/base_parser.py`. -/
inductive ParseFailure
  | missingField (field : String)
deriving Repr, DecidableEq

/-- The `for field in required_fields` check of `to_product_models`: the
first of `title`, `url`, `asin_code`, `image_url` that is falsy. -/
def firstMissing (item : RawItem) : Option String :=
  if !truthy item.title then some "title"
  else if !truthy item.url then some "url"
  else if !truthy item.asin_code then some "asin_code"
  else if !truthy item.image_url then some "image_url"
  else none

/-- The `Product(...)` construction of `to_product_models` (reached only
after the required-field check, so the `getD ""` defaults are never used). -/
def mkProduct (item : RawItem) : Product :=
  { title := item.title.getD "", url := item.url.getD "",
    asin_code := item.asin_code.getD "",
    image_url := item.image_url.getD "",
    price := item.price, currency := item.currency.getD "USD",
    rating := item.rating, review_count := item.review_count,
    availability := item.availability, seller := item.seller,
    sponsored := item.sponsored }

/-- `BaseParser.to_product_models`: iterate the maps in order; the first map
with a missing required field raises `ParseError` out of the whole call
(the products accumulated so far are discarded with it). -/
def toProductModels : List RawItem → Except ParseFailure (List Product)
  | [] => .ok []
  | item :: rest =>
    match firstMissing item with
    | some f => .error (.missingField f)
    | none =>
      match toProductModels rest with
      | .ok ps => .ok (mkProduct item :: ps)
      | .error e => .error e

/-- One candidate element of the image fallback selector list: the `src`
and lazy-load `data-src` attribute values BeautifulSoup would report
(`none` = attribute absent; `some ""` is falsy in the `or` chain). -/
structure ImgCandidate where
  src : Option String := none
  dataSrc : Option String := none
deriving Repr, DecidableEq

/-- A result container element of `AmazonSearchParser`, abstracted as what
each fixed selector lookup returns on it: every `select_one` becomes an
`Option`, every per-field fallback selector list becomes a candidate list in
selector order, and every `get_text(strip=True)` result is stored as the
string it returns. -/
structure Element where
  dataAsin : Option String := none
  linkHref : Option String := none
  titleCandidates : List String := []
  imageCandidates : List ImgCandidate := []
  priceWhole : Option String := none
  priceFraction : Option String := none
  priceAltTexts : List String := []
  ratingText : Option String := none
  reviewText : Option String := none
  availabilityText : Option String := none
  sellerText : Option String := none
  fullText : String := ""
deriving Repr, DecidableEq

/-- Scheme test `urllib.parse.urljoin` applies to the second argument:
a leading alpha-led run of scheme characters terminated by `:`. -/
def isSchemeChar (c : Char) : Bool :=
  c.isAlpha || c.isDigit || c = '+' || c = '-' || c = '.'

def hasScheme (s : String) : Bool :=
  match UrlBuilder.splitFirstChar ':' s.data with
  | none => false
  | some (pre, _) =>
    match pre with
    | [] => false
    | c :: rest => c.isAlpha && (c :: rest).all isSchemeChar

/-- Scheme/netloc/path split of an absolute `scheme://netloc/path` URL. -/
structure UrlParts where
  scheme : String
  netloc : String
  path : String
deriving Repr, DecidableEq

def splitAbsUrl (s : String) : Option UrlParts :=
  match UrlBuilder.splitFirstChar ':' s.data with
  | some (sch, rest) =>
    match rest with
    | '/' :: '/' :: rest2 =>
      some ⟨⟨sch⟩, ⟨rest2.takeWhile (· ≠ '/')⟩, ⟨rest2.dropWhile (· ≠ '/')⟩⟩
    | _ => none
  | none => none

/-- The base path up to and including its last `/` (the directory `urljoin`
merges a plain relative reference into); `/` when the path has no slash. -/
def dirname (path : String) : String :=
  let r := path.data.reverse.dropWhile (· ≠ '/')
  if r.isEmpty then "/" else ⟨r.reverse⟩

/-- `urllib.parse.urljoin(base, rel)` restricted to the absolute
`scheme://netloc/...` bases this parser is configured with; dot-segment
normalization and query/fragment merging (which the parser's inputs never
exercise) are not modelled. -/
def urljoin (base rel : String) : String :=
  match splitAbsUrl base with
  | none => rel
  | some p =>
    if rel = "" then base
    else if hasScheme rel then rel
    else if ("//".data).isPrefixOf rel.data then p.scheme ++ ":" ++ rel
    else if rel.data.head? = some '/' then
      p.scheme ++ "://" ++ p.netloc ++ rel
    else p.scheme ++ "://" ++ p.netloc ++ dirname p.path ++ rel

/-- Whether a string is an absolute http(s) URL. -/
def isHttpAbs (s : String) : Bool :=
  ("http://".data).isPrefixOf s.data || ("https://".data).isPrefixOf s.data

/-- `_extract_title`: the text of the first title selector that matches. -/
def extractTitle (e : Element) : Option String := e.titleCandidates.head?

/-- `_extract_url`: `urljoin(base_url, href)` when the product link element
exists with a truthy `href`; `None` otherwise. -/
def extractUrl (baseUrl : String) (e : Element) : Option String :=
  match e.linkHref with
  | some href => if href = "" then none else some (urljoin baseUrl href)
  | none => none

/-- The regex `/([A-Z0-9]{10})(?:[/?]|$)` tested at one position. -/
def asinAt : List Char → Option String
  | '/' :: rest =>
    let ten := rest.take 10
    if ten.length = 10 && ten.all (fun c => ('A' ≤ c && c ≤ 'Z') || c.isDigit)
    then
      match rest.drop 10 with
      | [] => some ⟨ten⟩
      | c :: _ => if c = '/' || c = '?' then some ⟨ten⟩ else none
    else none
  | _ => none

/-- `re.search` of the ASIN pattern: leftmost match. -/
def searchAsin : List Char → Option String
  | [] => none
  | c :: rest =>
    match asinAt (c :: rest) with
    | some a => some a
    | none => searchAsin rest

/-- `_extract_asin`: the `data-asin` attribute when truthy, else the ASIN
pattern searched in the product link's `href`. -/
def extractAsin (e : Element) : Option String :=
  let fromUrl : Option String :=
    match e.linkHref with
    | some href => if href = "" then none else searchAsin href.data
    | none => none
  match e.dataAsin with
  | some a => if a = "" then fromUrl else some a
  | none => fromUrl

/-- Python `a or b` over str-or-None values. -/
def orPy (a b : Option String) : Option String :=
  match a with
  | some s => if s = "" then b else some s
  | none => b

/-- One image candidate's contribution: `get("src") or get("data-src")`,
kept only when truthy. -/
def imgValue (c : ImgCandidate) : Option String :=
  match orPy c.src c.dataSrc with
  | some s => if s = "" then none else some s
  | none => none

def firstImageValue : List ImgCandidate → Option String
  | [] => none
  | c :: rest =>
    match imgValue c with
    | some v => some v
    | none => firstImageValue rest

/-- `_extract_image`: first selector whose element yields a truthy
`src`/`data-src` — returned verbatim, with no base-URL resolution. -/
def extractImage (e : Element) : Option String :=
  firstImageValue e.imageCandidates

/-- Leftmost maximal run of characters satisfying `p`
(`re.search("[...］+", t)` for a character class). -/
def firstRun (p : Char → Bool) : List Char → Option (List Char)
  | [] => none
  | c :: rest =>
    if p c then some (c :: rest.takeWhile p) else firstRun p rest

def isPriceChar (c : Char) : Bool := c.isDigit || c = '.' || c = ','

/-- The alternative-selector price scan: first text containing a
`[\d.,]+` match, with commas stripped. -/
def firstAltPrice : List String → Option String
  | [] => none
  | t :: rest =>
    match firstRun isPriceChar t.data with
    | some run => some ⟨run.filter (· ≠ ',')⟩
    | none => firstAltPrice rest

/-- `_extract_price`: `whole.fractional` when both sub-elements exist
(commas stripped from the whole part), else the alternative scan. -/
def extractPrice (e : Element) : Option String :=
  match e.priceWhole, e.priceFraction with
  | some w, some fr => some (⟨w.data.filter (· ≠ ',')⟩ ++ "." ++ fr)
  | _, _ => firstAltPrice e.priceAltTexts

/-- The regex `(\d+\.\d+|\d+)` matched at a digit position: the maximal
digit run, extended by `.digits` when that continues the match. -/
def decimalAt (l : List Char) : List Char :=
  let d1 := l.takeWhile Char.isDigit
  match l.drop d1.length with
  | '.' :: r2 =>
    let d2 := r2.takeWhile Char.isDigit
    if d2.isEmpty then d1 else d1 ++ '.' :: d2
  | _ => d1

/-- `re.search(r"(\d+\.\d+|\d+)", t)`: leftmost decimal or integer token. -/
def scanDecimal : List Char → Option (List Char)
  | [] => none
  | c :: rest =>
    if c.isDigit then some (decimalAt (c :: rest)) else scanDecimal rest

/-- `_extract_rating`: the numeric token of the rating phrase. -/
def extractRating (e : Element) : Option String :=
  match e.ratingText with
  | some t => (scanDecimal t.data).map fun l => (⟨l⟩ : String)
  | none => none

def digitsToNat (l : List Char) : Nat :=
  l.foldl (fun n c => 10 * n + (c.toNat - '0'.toNat)) 0

/-- `_extract_review_count`: first `[\d,]+` token, commas stripped, parsed
as an integer; a token of commas only fails `int()` and yields `None`. -/
def extractReviewCount (e : Element) : Option Int :=
  match e.reviewText with
  | some t =>
    match firstRun (fun c => c.isDigit || c = ',') t.data with
    | some run =>
      let digits := run.filter (· ≠ ',')
      if digits.isEmpty then none else some (digitsToNat digits)
    | none => none
  | none => none

/-- `sponsored_texts` of `_is_sponsored`. -/
def sponsoredMarkers : List String := ["Sponsored", "Ad"]

/-- `_is_sponsored`: case-insensitive substring test of each marker against
the container's full text. -/
def isSponsored (elementText : String) : Bool :=
  sponsoredMarkers.any fun t =>
    PyStr.containsSub (PyStr.lower elementText) (PyStr.lower t)

/-- `_parse_product_element`: extract every field; discard the container
when any of the four required fields is falsy. -/
def parseProductElement (baseUrl : String) (e : Element) : Option RawItem :=
  let title := extractTitle e
  let url := extractUrl baseUrl e
  let asin := extractAsin e
  let image := extractImage e
  if truthy title && truthy url && truthy asin && truthy image then
    some
      { title := title
        url := url
        asin_code := asin
        image_url := image
        price := extractPrice e
        rating := extractRating e
        review_count := extractReviewCount e
        availability := e.availabilityText
        seller := e.sellerText
        sponsored := isSponsored e.fullText }
  else none

/-- `parse_search`: parse each result container independently, keeping the
maps of the containers whose required fields all extracted. -/
def parseSearch (baseUrl : String) (elements : List Element) : List RawItem :=
  elements.filterMap (parseProductElement baseUrl)

end Parse

/-- A complete raw field map: all four required fields present and
non-empty. -/
def completeItem : Parse.RawItem :=
  { title := some "Wireless Mouse",
    url := some "https://www.amazon.com/dp/B012345678",
    asin_code := some "B012345678",
    image_url := some "https://img.example.com/I/41.jpg" }

/-- A raw field map missing `title`; the other three required fields are
present. -/
def missingTitleItem : Parse.RawItem :=
  { url := some "https://www.amazon.com/dp/B098765432",
    asin_code := some "B098765432",
    image_url := some "https://img.example.com/I/42.jpg" }

/-- C2, counterexample: a batch holding one map missing `title` followed by
one complete map does not convert per-item — `to_product_models` raises a
`ParseError` for the whole batch and the complete map yields no record,
even though the complete map alone converts fine.  This refutes the claim
that every other map in the list still yields a `ProductRecord`. -/
theorem C2_counterexample :
    Parse.toProductModels [missingTitleItem, completeItem] =
        .error (.missingField "title") ∧
      Parse.toProductModels [completeItem] =
        .ok [Parse.mkProduct completeItem] :=
  ⟨rfl, rfl⟩

/-- **C2** (amended) — Whole-batch conversion (`parse/base_parser.py`):
`to_product_models` re-validates the four required fields per map, but it
fails whole-batch, not per-item: when every map has all four required
fields the call returns one `Product` per map, and when any map is missing
a required field the call raises a structured `ParseError` and returns no
records at all — the other, complete maps included.  (The original claim
said the complete maps still yield records; see `C2_counterexample`.) -/
theorem C2_whole_batch_conversion (items : List Parse.RawItem) :
    ((∀ i ∈ items, Parse.firstMissing i = none) →
        Parse.toProductModels items = .ok (items.map Parse.mkProduct)) ∧
      ((∃ i ∈ items, Parse.firstMissing i ≠ none) →
        ∃ e, Parse.toProductModels items = .error e) := by
  induction items with
  | nil =>
    constructor
    · intro _; rfl
    · rintro ⟨i, hi, _⟩; simp at hi
  | cons item rest ih =>
    constructor
    · intro hall
      have hitem : Parse.firstMissing item = none :=
        hall item (List.mem_cons_self _ _)
      have hrest := ih.1 fun i hi => hall i (List.mem_cons_of_mem _ hi)
      simp [Parse.toProductModels, hitem, hrest]
    · rintro ⟨i, hi, hne⟩
      cases hm : Parse.firstMissing item with
      | some f =>
        exact ⟨.missingField f, by simp [Parse.toProductModels, hm]⟩
      | none =>
        rcases List.mem_cons.mp hi with rfl | hi'
        · exact absurd hm hne
        · obtain ⟨e, he⟩ := ih.2 ⟨i, hi', hne⟩
          exact ⟨e, by simp [Parse.toProductModels, hm, he]⟩

/-- Witness for C2 (amended) at concrete batches: the all-complete batch
converts to records; the batch with a missing `title` errors out whole. -/
theorem C2_whole_batch_conversion_witness :
    Parse.toProductModels [completeItem] =
        .ok ([completeItem].map Parse.mkProduct) ∧
      ∃ e, Parse.toProductModels [missingTitleItem, completeItem] =
        .error e :=
  ⟨(C2_whole_batch_conversion [completeItem]).1 (by decide),
    (C2_whole_batch_conversion [missingTitleItem, completeItem]).2
      ⟨missingTitleItem, by decide, by decide⟩⟩

/-- **C10** — Sponsored marker over-matching
(`parse/amazon_search_parser.py`): `_is_sponsored` is a case-insensitive
substring test of the markers `Sponsored` and `Ad` against the container's
full text, so any container whose lowercased text contains `ad` anywhere —
inside ordinary words such as `adapter` or `iPad` included — is marked
sponsored. -/
theorem C10_sponsored_substring (text : String)
    (h : PyStr.containsSub (PyStr.lower text) "ad" = true) :
    Parse.isSponsored text = true := by
  have hAd : PyStr.lower "Ad" = "ad" := rfl
  simp [Parse.isSponsored, Parse.sponsoredMarkers, hAd, h]

/-- Witness for C10: a plain adapter listing (no advertisement) whose text
contains `ad` only inside the word `adapter` is marked sponsored. -/
theorem C10_sponsored_substring_witness :
    PyStr.containsSub (PyStr.lower "USB-C power adapter") "ad" = true ∧
      Parse.isSponsored "USB-C power adapter" = true :=
  ⟨by decide, C10_sponsored_substring "USB-C power adapter" (by decide)⟩

theorem isHttpAbs_http_append (t : List Char) :
    Parse.isHttpAbs ⟨"http://".data ++ t⟩ = true := by
  have h : ("http://".data).isPrefixOf ("http://".data ++ t) = true := by
    rw [List.isPrefixOf_iff_prefix]; exact List.prefix_append _ _
  simp [Parse.isHttpAbs, h]

theorem isHttpAbs_https_append (t : List Char) :
    Parse.isHttpAbs ⟨"https://".data ++ t⟩ = true := by
  have h : ("https://".data).isPrefixOf ("https://".data ++ t) = true := by
    rw [List.isPrefixOf_iff_prefix]; exact List.prefix_append _ _
  simp [Parse.isHttpAbs, h]

theorem splitAbsUrl_http (t : List Char) :
    Parse.splitAbsUrl ⟨"http://".data ++ t⟩ =
      some ⟨"http", ⟨t.takeWhile (· ≠ '/')⟩, ⟨t.dropWhile (· ≠ '/')⟩⟩ := by
  have hd : ("http://".data ++ t) = 'h' :: 't' :: 't' :: 'p' :: ':' :: '/' :: '/' :: t := rfl
  simp [Parse.splitAbsUrl, hd, UrlBuilder.splitFirstChar]

theorem splitAbsUrl_https (t : List Char) :
    Parse.splitAbsUrl ⟨"https://".data ++ t⟩ =
      some ⟨"https", ⟨t.takeWhile (· ≠ '/')⟩, ⟨t.dropWhile (· ≠ '/')⟩⟩ := by
  have hd : ("https://".data ++ t) = 'h' :: 't' :: 't' :: 'p' :: 's' :: ':' :: '/' :: '/' :: t :=
    rfl
  simp [Parse.splitAbsUrl, hd, UrlBuilder.splitFirstChar]

theorem urljoin_eq_of_split (base rel : String) (p : Parse.UrlParts)
    (h : Parse.splitAbsUrl base = some p) :
    Parse.urljoin base rel =
      if rel = "" then base
      else if Parse.hasScheme rel then rel
      else if ("//".data).isPrefixOf rel.data then p.scheme ++ ":" ++ rel
      else if rel.data.head? = some '/' then
        p.scheme ++ "://" ++ p.netloc ++ rel
      else p.scheme ++ "://" ++ p.netloc ++ Parse.dirname p.path ++ rel := by
  unfold Parse.urljoin
  rw [h]

/-- `urljoin` of an absolute http(s) base with a scheme-free reference is
absolute. -/
theorem urljoin_isHttpAbs (base rel : String)
    (hb : Parse.isHttpAbs base = true)
    (hrel : Parse.hasScheme rel = false) :
    Parse.isHttpAbs (Parse.urljoin base rel) = true := by
  have hb' := hb
  rw [Parse.isHttpAbs, Bool.or_eq_true, List.isPrefixOf_iff_prefix,
    List.isPrefixOf_iff_prefix] at hb'
  rcases hb' with ⟨t, ht⟩ | ⟨t, ht⟩
  · have hbeq : base = (⟨"http://".data ++ t⟩ : String) := by
      cases base; simp_all
    have hsplit : Parse.splitAbsUrl base =
        some ⟨"http", ⟨t.takeWhile (· ≠ '/')⟩, ⟨t.dropWhile (· ≠ '/')⟩⟩ := by
      rw [hbeq]; exact splitAbsUrl_http t
    rw [urljoin_eq_of_split base rel _ hsplit]
    by_cases h0 : rel = ""
    · rw [if_pos h0, hbeq]
      exact isHttpAbs_http_append t
    · rw [if_neg h0, if_neg (by simp [hrel])]
      by_cases h2 : ("//".data).isPrefixOf rel.data = true
      · rw [if_pos h2]
        rw [List.isPrefixOf_iff_prefix] at h2
        obtain ⟨u, hu⟩ := h2
        show Parse.isHttpAbs (("http" : String) ++ ":" ++ rel) = true
        rw [show ("http" : String) ++ ":" ++ rel =
            (⟨"http://".data ++ u⟩ : String) from by
          cases rel with
          | mk d => cases hu; rfl]
        exact isHttpAbs_http_append u
      · rw [if_neg h2]
        by_cases h3 : rel.data.head? = some '/'
        · rw [if_pos h3]
          show Parse.isHttpAbs (("http" : String) ++ "://" ++
            (⟨t.takeWhile (· ≠ '/')⟩ : String) ++ rel) = true
          rw [show ("http" : String) ++ "://" ++
              (⟨t.takeWhile (· ≠ '/')⟩ : String) ++ rel =
              (⟨"http://".data ++ (t.takeWhile (· ≠ '/') ++ rel.data)⟩ :
                String) from by cases rel; rfl]
          exact isHttpAbs_http_append _
        · rw [if_neg h3]
          show Parse.isHttpAbs (("http" : String) ++ "://" ++
            (⟨t.takeWhile (· ≠ '/')⟩ : String) ++
            Parse.dirname ⟨t.dropWhile (· ≠ '/')⟩ ++ rel) = true
          rw [show ("http" : String) ++ "://" ++
              (⟨t.takeWhile (· ≠ '/')⟩ : String) ++
              Parse.dirname ⟨t.dropWhile (· ≠ '/')⟩ ++ rel =
              (⟨"http://".data ++ (t.takeWhile (· ≠ '/') ++
                (Parse.dirname ⟨t.dropWhile (· ≠ '/')⟩).data ++ rel.data)⟩ :
                String) from by cases rel; rfl]
          exact isHttpAbs_http_append _
  · have hbeq : base = (⟨"https://".data ++ t⟩ : String) := by
      cases base; simp_all
    have hsplit : Parse.splitAbsUrl base =
        some ⟨"https", ⟨t.takeWhile (· ≠ '/')⟩, ⟨t.dropWhile (· ≠ '/')⟩⟩ := by
      rw [hbeq]; exact splitAbsUrl_https t
    rw [urljoin_eq_of_split base rel _ hsplit]
    by_cases h0 : rel = ""
    · rw [if_pos h0, hbeq]
      exact isHttpAbs_https_append t
    · rw [if_neg h0, if_neg (by simp [hrel])]
      by_cases h2 : ("//".data).isPrefixOf rel.data = true
      · rw [if_pos h2]
        rw [List.isPrefixOf_iff_prefix] at h2
        obtain ⟨u, hu⟩ := h2
        show Parse.isHttpAbs (("https" : String) ++ ":" ++ rel) = true
        rw [show ("https" : String) ++ ":" ++ rel =
            (⟨"https://".data ++ u⟩ : String) from by
          cases rel with
          | mk d => cases hu; rfl]
        exact isHttpAbs_https_append u
      · rw [if_neg h2]
        by_cases h3 : rel.data.head? = some '/'
        · rw [if_pos h3]
          show Parse.isHttpAbs (("https" : String) ++ "://" ++
            (⟨t.takeWhile (· ≠ '/')⟩ : String) ++ rel) = true
          rw [show ("https" : String) ++ "://" ++
              (⟨t.takeWhile (· ≠ '/')⟩ : String) ++ rel =
              (⟨"https://".data ++ (t.takeWhile (· ≠ '/') ++ rel.data)⟩ :
                String) from by cases rel; rfl]
          exact isHttpAbs_https_append _
        · rw [if_neg h3]
          show Parse.isHttpAbs (("https" : String) ++ "://" ++
            (⟨t.takeWhile (· ≠ '/')⟩ : String) ++
            Parse.dirname ⟨t.dropWhile (· ≠ '/')⟩ ++ rel) = true
          rw [show ("https" : String) ++ "://" ++
              (⟨t.takeWhile (· ≠ '/')⟩ : String) ++
              Parse.dirname ⟨t.dropWhile (· ≠ '/')⟩ ++ rel =
              (⟨"https://".data ++ (t.takeWhile (· ≠ '/') ++
                (Parse.dirname ⟨t.dropWhile (· ≠ '/')⟩).data ++ rel.data)⟩ :
                String) from by cases rel; rfl]
          exact isHttpAbs_https_append _

theorem imgValue_verbatim (c : Parse.ImgCandidate) (v : String)
    (h : Parse.imgValue c = some v) :
    c.src = some v ∨ c.dataSrc = some v := by
  unfold Parse.imgValue Parse.orPy at h
  cases hs : c.src with
  | none =>
    rw [hs] at h
    cases hd : c.dataSrc with
    | none => rw [hd] at h; simp at h
    | some d =>
      rw [hd] at h
      by_cases hde : d = ""
      · simp [hde] at h
      · simp [hde] at h
        right
        exact congrArg some h
  | some s =>
    rw [hs] at h
    by_cases hse : s = ""
    · simp only [if_pos hse] at h
      cases hd : c.dataSrc with
      | none => rw [hd] at h; simp at h
      | some d =>
        rw [hd] at h
        by_cases hde : d = ""
        · simp [hde] at h
        · simp [hde] at h
          right
          exact congrArg some h
    · simp only [if_neg hse] at h
      simp [hse] at h
      left
      exact congrArg some h

theorem firstImageValue_verbatim (l : List Parse.ImgCandidate) (v : String)
    (h : Parse.firstImageValue l = some v) :
    ∃ c, c ∈ l ∧ (c.src = some v ∨ c.dataSrc = some v) := by
  induction l with
  | nil => simp [Parse.firstImageValue] at h
  | cons c rest ih =>
    rw [Parse.firstImageValue] at h
    cases himg : Parse.imgValue c with
    | some w =>
      rw [himg] at h
      injection h with hwv
      exact ⟨c, List.mem_cons_self _ _, hwv ▸ imgValue_verbatim c w himg⟩
    | none =>
      rw [himg] at h
      obtain ⟨c', hc', hv⟩ := ih h
      exact ⟨c', List.mem_cons_of_mem _ hc', hv⟩

/-- A concrete result container: complete (all four required fields
extract), detail link root-relative, image `src` root-relative. -/
def relImageElement : Parse.Element :=
  { dataAsin := some "B012345678",
    linkHref := some "/dp/B012345678/",
    titleCandidates := ["Widget"],
    imageCandidates := [{ src := some "/images/I/41widget.jpg" }],
    fullText := "Widget" }

/-- C4, counterexample: on a container whose detail link and image `src`
are both root-relative paths, `_parse_product_element` returns a field map
whose `url` has been resolved against the base URL (absolute) but whose
`image_url` is the verbatim relative path — not an absolute URL.  This
refutes the claim that the image URL is resolved against the base URL. -/
theorem C4_counterexample :
    (Parse.parseProductElement "https://www.amazon.com"
        relImageElement).map (fun item => (item.url, item.image_url)) =
      some (some "https://www.amazon.com/dp/B012345678/",
        some "/images/I/41widget.jpg") ∧
      Parse.isHttpAbs "https://www.amazon.com/dp/B012345678/" = true ∧
      Parse.isHttpAbs "/images/I/41widget.jpg" = false :=
  ⟨rfl, by decide, by decide⟩

/-- **C4** (amended) — URL resolution (`parse/amazon_search_parser.py`):
`_extract_url` resolves the extracted `href` against the configured base
URL, so with an absolute http(s) base and a scheme-free (relative) `href`
every returned detail URL is absolute; `_extract_image`, however, returns
the winning candidate's `src`/`data-src` attribute value verbatim, with no
base-URL resolution — so a relative image path stays relative (see
`C4_counterexample`).  The original claim asserted both fields are
resolved; only the detail URL is. -/
theorem C4_url_resolution (base : String) (e : Parse.Element)
    (hb : Parse.isHttpAbs base = true)
    (hs : ∀ href, e.linkHref = some href → Parse.hasScheme href = false) :
    (∀ u, Parse.extractUrl base e = some u → Parse.isHttpAbs u = true) ∧
      (∀ v, Parse.extractImage e = some v →
        ∃ c, c ∈ e.imageCandidates ∧ (c.src = some v ∨ c.dataSrc = some v)) := by
  constructor
  · intro u hu
    unfold Parse.extractUrl at hu
    cases hhref : e.linkHref with
    | none => rw [hhref] at hu; exact absurd hu (by simp)
    | some href =>
      rw [hhref] at hu
      by_cases hemp : href = ""
      · simp [hemp] at hu
      · simp only [hemp, if_false] at hu
        simp at hu
        rw [← hu]
        exact urljoin_isHttpAbs base href hb (hs href hhref)
  · intro v hv
    exact firstImageValue_verbatim e.imageCandidates v hv

/-- Witness for C4 (amended) at the concrete container `relImageElement`:
the resolved detail URL is absolute; the image value is one of the raw
candidate attribute values. -/
theorem C4_url_resolution_witness :
    Parse.isHttpAbs "https://www.amazon.com" = true ∧
      (∀ u, Parse.extractUrl "https://www.amazon.com" relImageElement =
        some u → Parse.isHttpAbs u = true) ∧
      (∀ v, Parse.extractImage relImageElement = some v →
        ∃ c, c ∈ relImageElement.imageCandidates ∧
          (c.src = some v ∨ c.dataSrc = some v)) :=
  ⟨by decide,
    (C4_url_resolution "https://www.amazon.com" relImageElement (by decide)
      (fun href hh => by
        simp only [relImageElement] at hh
        injection hh with hh'
        rw [← hh']; decide)).1,
    (C4_url_resolution "https://www.amazon.com" relImageElement (by decide)
      (fun href hh => by
        simp only [relImageElement] at hh
        injection hh with hh'
        rw [← hh']; decide)).2⟩

namespace Search

/-- The page-level failures (`FetchError`, `ParseError`) that
`_search_page` catches internally. -/
inductive PageError
  | fetch
  | parse
deriving Repr, DecidableEq

/-- How a run can abort.  The `storage` constructor exists so the claim
that a storage failure escapes the run is expressible; the theorems show
it never does. -/
inductive RunError
  | validation (e : Validators.ValidationFailure)
  | storage
deriving Repr, DecidableEq

/-- `SearchMetadata` (`models.py`): the run counters.  `duration_seconds`
and `timestamp` are wall-clock values outside the functional model. -/
structure SearchMetadata where
  query : String
  pages_scraped : Int
  total_results : Nat
  unique_products : Nat
  marketplace : String := "US"
deriving Repr, DecidableEq

/-- Run-scoped accumulators of `search_products`: the seen-ASIN set
(insertion-ordered, duplicate-free) and the accumulated products. -/
structure RunState where
  seen_asins : List String
  all_products : List Parse.Product
deriving Repr, DecidableEq

/-- The per-page dedup loop: walk the page's products in order, keeping
each product whose `asin_code` is not yet seen and inserting its ASIN. -/
def dedupePage (seen : List String) :
    List Parse.Product → List String × List Parse.Product
  | [] => (seen, [])
  | p :: rest =>
    if p.asin_code ∈ seen then dedupePage seen rest
    else
      let r := dedupePage (seen ++ [p.asin_code]) rest
      (r.1, p :: r.2)

/-- One iteration of the page loop of `search_products`.  `_search_page`
catches its own fetch/parse exceptions and returns `[]`; the loop body then
deduplicates, extends both accumulators, and — when a storage backend is
attached and the batch is non-empty — calls `save_batch`, whose exception
is caught by the loop's `except` (the accumulators stay extended) before
continuing with the next page.  Returns the new state and whether a storage
error was raised (and swallowed). -/
def processPage (storageAttached : Bool)
    (saveFails : List Parse.Product → Bool) (st : RunState)
    (outcome : Except PageError (List Parse.Product)) : RunState × Bool :=
  let pageProducts := match outcome with
    | .ok ps => ps
    | .error _ => []
  let r := dedupePage st.seen_asins pageProducts
  if r.2.isEmpty then (⟨r.1, st.all_products⟩, false)
  else (⟨r.1, st.all_products ++ r.2⟩, storageAttached && saveFails r.2)

/-- `SearchService.search_products`: validate the query and page count,
loop over pages `1..pages` accumulating deduplicated products, and build
the metadata from the counters.  `outcomes page` is what the body of
`_search_page` produces for that page — the parsed product models, or the
fetch/parse exception it caught; `saveFails` says on which batches the
attached storage backend's `save_batch` raises. -/
def searchProducts (maxPages : Option Int) (storageAttached : Bool)
    (saveFails : List Parse.Product → Bool) (query : String) (pages : Int)
    (outcomes : Nat → Except PageError (List Parse.Product)) :
    Except RunError (List Parse.Product × SearchMetadata) := do
  let q ← (Validators.validateQuery query).mapError RunError.validation
  let p ← (Validators.validatePages pages maxPages).mapError RunError.validation
  let st := (List.range p.toNat).foldl
    (fun st i => (processPage storageAttached saveFails st (outcomes (i + 1))).1)
    ⟨[], []⟩
  return (st.all_products,
    { query := q, pages_scraped := p,
      total_results := st.all_products.length,
      unique_products := st.seen_asins.length })

end Search

/-- A concrete product record (page fixture). -/
def prodA : Parse.Product :=
  { title := "Wireless Mouse", url := "https://www.amazon.com/dp/B012345678",
    asin_code := "B012345678", image_url := "https://img.example.com/I/41.jpg" }

/-- A second concrete product record with a different ASIN. -/
def prodB : Parse.Product :=
  { title := "USB Hub", url := "https://www.amazon.com/dp/B098765432",
    asin_code := "B098765432", image_url := "https://img.example.com/I/42.jpg" }

theorem processPage_state_independent (sa : Bool)
    (sf sf' : List Parse.Product → Bool) (st : Search.RunState)
    (o : Except Search.PageError (List Parse.Product)) :
    (Search.processPage sa sf st o).1 = (Search.processPage sa sf' st o).1 := by
  unfold Search.processPage
  cases o <;> dsimp only <;> split <;> rfl

theorem validatePages_ok (pages : Int) (mp : Option Int) (p : Int)
    (h : Validators.validatePages pages mp = .ok p) : p = pages := by
  unfold Validators.validatePages at h
  by_cases h1 : pages < 1
  · simp [h1] at h
  · rw [if_neg h1] at h
    cases mp with
    | none => injection h with h'; exact h'.symm
    | some m =>
      dsimp only at h
      by_cases h2 : m ≠ 0 ∧ m < pages
      · simp [h2] at h
      · rw [if_neg h2] at h
        injection h with h'
        exact h'.symm

/-- C1, counterexample: a run with a storage backend whose `save_batch`
always raises.  `processPage` (the loop body) reports that the storage
error was raised on page 1's non-empty batch, yet `search_products`
returns `.ok` with the page's products and full metadata — the error was
caught at the page-loop boundary and did not propagate.  This refutes the
claim that a `save_batch` failure aborts the run with that error. -/
theorem C1_counterexample :
    (Search.processPage true (fun _ => true) ⟨[], []⟩ (.ok [prodA])).2 =
        true ∧
      Search.searchProducts none true (fun _ => true) "mouse" 1
        (fun _ => .ok [prodA]) =
      .ok ([prodA],
        { query := "mouse", pages_scraped := 1, total_results := 1,
          unique_products := 1 }) :=
  ⟨rfl, rfl⟩

/-- **C1** (amended) — Storage failures are swallowed
(`pipeline/search_service.py`): `storage.save_batch` is called inside the
page loop's `try`/`except Exception` block, so a `StorageError` it raises
is caught and logged like a page failure: the run's outcome is identical
to a run whose storage never fails — the failed batch's products remain in
the returned results — and `search_products` never aborts with a storage
error.  (The original claim said the error propagates out of the run; see
`C1_counterexample`.) -/
theorem C1_storage_error_swallowed (maxPages : Option Int) (sa : Bool)
    (sf : List Parse.Product → Bool) (query : String) (pages : Int)
    (outcomes : Nat → Except Search.PageError (List Parse.Product)) :
    Search.searchProducts maxPages sa sf query pages outcomes =
        Search.searchProducts maxPages sa (fun _ => false) query pages
          outcomes ∧
      Search.searchProducts maxPages sa sf query pages outcomes ≠
        .error .storage := by
  have hfold : ∀ (l : List Nat) (st : Search.RunState),
      l.foldl (fun st i =>
        (Search.processPage sa sf st (outcomes (i + 1))).1) st =
      l.foldl (fun st i =>
        (Search.processPage sa (fun _ => false) st (outcomes (i + 1))).1) st :=
    fun l => by
      induction l with
      | nil => intro st; rfl
      | cons x xs ih =>
        intro st
        show xs.foldl _ ((Search.processPage sa sf st (outcomes (x + 1))).1) =
          xs.foldl _ ((Search.processPage sa (fun _ => false) st
            (outcomes (x + 1))).1)
        rw [processPage_state_independent sa sf (fun _ => false)]
        exact ih _
  constructor
  · unfold Search.searchProducts
    cases hq : Validators.validateQuery query with
    | error e => rfl
    | ok q =>
      cases hp : Validators.validatePages pages maxPages with
      | error e => rfl
      | ok p =>
        simp only [Except.mapError, bind, Except.bind, pure]
        rw [hfold]
  · unfold Search.searchProducts
    cases hq : Validators.validateQuery query with
    | error e => simp [Except.mapError, bind, Except.bind]
    | ok q =>
      cases hp : Validators.validatePages pages maxPages with
      | error e => simp [Except.mapError, bind, Except.bind]
      | ok p => simp [Except.mapError, bind, Except.bind, pure, Except.pure]

/-- Witness for C1 (amended) at the concrete always-failing storage run:
its outcome coincides with the never-failing run and is not a storage
error. -/
theorem C1_storage_error_swallowed_witness :
    Search.searchProducts none true (fun _ => true) "mouse" 1
        (fun _ => .ok [prodA]) =
      Search.searchProducts none true (fun _ => false) "mouse" 1
        (fun _ => .ok [prodA]) ∧
      Search.searchProducts none true (fun _ => true) "mouse" 1
        (fun _ => .ok [prodA]) ≠ .error .storage :=
  C1_storage_error_swallowed none true (fun _ => true) "mouse" 1
    (fun _ => .ok [prodA])

theorem dedupePage_length (ps : List Parse.Product) : ∀ seen : List String,
    (Search.dedupePage seen ps).1.length =
      seen.length + (Search.dedupePage seen ps).2.length := by
  induction ps with
  | nil => intro seen; simp [Search.dedupePage]
  | cons p rest ih =>
    intro seen
    unfold Search.dedupePage
    by_cases hm : p.asin_code ∈ seen
    · simp only [hm, if_pos]
      exact ih seen
    · simp only [hm, if_neg, not_false_iff]
      have h2 := ih (seen ++ [p.asin_code])
      simp only [List.length_append, List.length_singleton] at h2
      simp [h2]
      omega

theorem processPage_counts (sa : Bool) (sf : List Parse.Product → Bool)
    (st : Search.RunState)
    (o : Except Search.PageError (List Parse.Product))
    (h : st.seen_asins.length = st.all_products.length) :
    ((Search.processPage sa sf st o).1).seen_asins.length =
      ((Search.processPage sa sf st o).1).all_products.length := by
  unfold Search.processPage
  cases o with
  | error e =>
    dsimp only
    simp [Search.dedupePage, h]
  | ok ps =>
    dsimp only
    have hd := dedupePage_length ps st.seen_asins
    split
    next hemp =>
      have h2 : (Search.dedupePage st.seen_asins ps).2 = [] := by
        simpa using hemp
      rw [h2] at hd
      simp only [List.length_nil, Nat.add_zero] at hd
      simpa [hd] using h
    next hemp =>
      simp only [List.length_append]
      omega

/-- The metadata the duplicate-pages run produces. -/
def dupMetadata : Search.SearchMetadata :=
  { query := "mouse"
    pages_scraped := 2
    total_results := 1
    unique_products := 1 }

/-- A run of two pages, each returning the same single product: the second
page's copy is deduplicated away. -/
def duplicatePagesRun : Except Search.RunError
    (List Parse.Product × Search.SearchMetadata) :=
  Search.searchProducts none false (fun _ => false) "mouse" 2
    (fun _ => .ok [prodA])

/-- C3, counterexample: with the same product on both of two pages,
`search_products` reports `total_results = 1` — not the sum of raw
per-page counts (2) — and `total_results = unique_products`, never
strictly greater.  The code sets `total_results = len(all_products)`,
which counts cross-page-deduplicated products, so the claimed strict
inequality is impossible. -/
theorem C3_counterexample :
    duplicatePagesRun = .ok ([prodA], dupMetadata) ∧
      dupMetadata.total_results = 1 ∧ dupMetadata.unique_products = 1 ∧
      ¬ dupMetadata.unique_products < dupMetadata.total_results :=
  ⟨rfl, rfl, rfl, by decide⟩

/-- **C3** (amended) — Run metadata counters
(`pipeline/search_service.py`, `models.py`): `search_products` builds
`SearchMetadata` with `total_results = len(all_products)` and
`unique_products = len(seen_asins)`; since every accumulated product adds
exactly one ASIN to the seen set, the two counters are always equal (and
equal the number of returned products) — `total_results` is *not* the sum
of raw per-page counts, and it is never strictly greater than
`unique_products`.  (See `C3_counterexample`.) -/
theorem C3_totals_equal (maxPages : Option Int) (sa : Bool)
    (sf : List Parse.Product → Bool) (query : String) (pages : Int)
    (outcomes : Nat → Except Search.PageError (List Parse.Product))
    (prods : List Parse.Product) (md : Search.SearchMetadata)
    (h : Search.searchProducts maxPages sa sf query pages outcomes =
      .ok (prods, md)) :
    md.total_results = md.unique_products ∧
      md.total_results = prods.length := by
  unfold Search.searchProducts at h
  cases hq : Validators.validateQuery query with
  | error e =>
    rw [hq] at h
    exact absurd h (by simp [Except.mapError, bind, Except.bind])
  | ok q =>
    rw [hq] at h
    cases hp : Validators.validatePages pages maxPages with
    | error e =>
      rw [hp] at h
      exact absurd h (by simp [Except.mapError, bind, Except.bind])
    | ok p =>
      rw [hp] at h
      simp only [Except.mapError, bind, Except.bind, pure, Except.pure] at h
      have hinv : ∀ (l : List Nat) (st : Search.RunState),
          st.seen_asins.length = st.all_products.length →
          (l.foldl (fun st i =>
            (Search.processPage sa sf st
              (outcomes (i + 1))).1) st).seen_asins.length =
          (l.foldl (fun st i =>
            (Search.processPage sa sf st
              (outcomes (i + 1))).1) st).all_products.length := by
        intro l
        induction l with
        | nil => intro st hst; exact hst
        | cons x xs ih =>
          intro st hst
          exact ih _ (processPage_counts sa sf st (outcomes (x + 1)) hst)
      injection h with h'
      have hmd := congrArg Prod.snd h'
      have hpr := congrArg Prod.fst h'
      simp only at hmd hpr
      rw [← hmd, ← hpr]
      refine ⟨?_, rfl⟩
      exact (hinv (List.range p.toNat) ⟨[], []⟩ rfl).symm

/-- Witness for C3 (amended) at the concrete duplicate-pages run. -/
theorem C3_totals_equal_witness :
    dupMetadata.total_results = dupMetadata.unique_products ∧
      dupMetadata.total_results = [prodA].length :=
  C3_totals_equal none false (fun _ => false) "mouse" 2 (fun _ => .ok [prodA])
    [prodA] dupMetadata rfl

/-- **C6** — Partial-failure continuation
(`pipeline/search_service.py`): a page whose fetch or parse raises is
caught (`_search_page` returns `[]` and the page loop's `except` also
guards the boundary), so a run behaves exactly as if every failing page
had returned zero results: remaining pages still contribute their records,
the run returns the unique records of all non-failing pages, and on
success the metadata's `pages_scraped` equals the requested page count. -/
theorem C6_partial_failure_continuation (maxPages : Option Int) (sa : Bool)
    (sf : List Parse.Product → Bool) (query : String) (pages : Int)
    (outcomes : Nat → Except Search.PageError (List Parse.Product)) :
    Search.searchProducts maxPages sa sf query pages outcomes =
        Search.searchProducts maxPages sa sf query pages
          (fun i =>
            match outcomes i with
            | .error _ => .ok []
            | o => o) ∧
      ∀ prods md,
        Search.searchProducts maxPages sa sf query pages outcomes =
          .ok (prods, md) → md.pages_scraped = pages := by
  constructor
  · have hstep : ∀ (st : Search.RunState) (i : Nat),
        (Search.processPage sa sf st (outcomes (i + 1))).1 =
        (Search.processPage sa sf st
          (match outcomes (i + 1) with
            | .error _ => .ok []
            | o => o)).1 := by
      intro st i
      cases ho : outcomes (i + 1) with
      | error e => rfl
      | ok ps => rfl
    have hfold : ∀ (l : List Nat) (st : Search.RunState),
        l.foldl (fun st i =>
          (Search.processPage sa sf st (outcomes (i + 1))).1) st =
        l.foldl (fun st i =>
          (Search.processPage sa sf st
            (match outcomes (i + 1) with
              | .error _ => .ok []
              | o => o)).1) st := by
      intro l
      induction l with
      | nil => intro st; rfl
      | cons x xs ih =>
        intro st
        show xs.foldl _ ((Search.processPage sa sf st (outcomes (x + 1))).1) =
          xs.foldl _ _
        rw [hstep st x]
        exact ih _
    unfold Search.searchProducts
    cases hq : Validators.validateQuery query with
    | error e => rfl
    | ok q =>
      cases hp : Validators.validatePages pages maxPages with
      | error e => rfl
      | ok p =>
        simp only [Except.mapError, bind, Except.bind, pure]
        rw [hfold]
  · intro prods md h
    unfold Search.searchProducts at h
    cases hq : Validators.validateQuery query with
    | error e =>
      rw [hq] at h
      exact absurd h (by simp [Except.mapError, bind, Except.bind])
    | ok q =>
      rw [hq] at h
      cases hp : Validators.validatePages pages maxPages with
      | error e =>
        rw [hp] at h
        exact absurd h (by simp [Except.mapError, bind, Except.bind])
      | ok p =>
        rw [hp] at h
        simp only [Except.mapError, bind, Except.bind, pure, Except.pure] at h
        injection h with h'
        have hmd := congrArg Prod.snd h'
        simp only at hmd
        rw [← hmd]
        exact validatePages_ok pages maxPages p hp

/-- Page outcomes for the C6 witness run: page 1 yields one product,
page 2 raises a fetch error, page 3 yields a different product. -/
def c6Outcomes : Nat → Except Search.PageError (List Parse.Product) :=
  fun n =>
    match n with
    | 1 => .ok [prodA]
    | 2 => .error .fetch
    | _ => .ok [prodB]

/-- The metadata of the C6 witness run. -/
def c6Metadata : Search.SearchMetadata :=
  { query := "mouse"
    pages_scraped := 3
    total_results := 2
    unique_products := 2 }

/-- Witness for C6 at the claim's concrete scenario: page 2 of 3 fails,
the run returns the records of pages 1 and 3, and `pages_scraped = 3`. -/
theorem C6_partial_failure_continuation_witness :
    Search.searchProducts none false (fun _ => false) "mouse" 3 c6Outcomes =
        .ok ([prodA, prodB], c6Metadata) ∧
      c6Metadata.pages_scraped = 3 :=
  ⟨rfl,
    (C6_partial_failure_continuation none false (fun _ => false) "mouse" 3
      c6Outcomes).2 [prodA, prodB] c6Metadata rfl⟩

namespace Caching

/-- The slice of the merged global configuration (`config/loader.py`) that
`utils/cache.py` re-reads on every call: `http.cache_enabled`. -/
structure GlobalConfig where
  httpCacheEnabled : Bool
deriving Repr, DecidableEq

/-- The fetch-layer failures of `fetch/http_client.py`. -/
inductive FetchFailure
  | timeout
  | connection
  | http (status : Int)
  | other
deriving Repr, DecidableEq

/-- The cache directory of `utils/cache.py`: one entry per URL key holding
the write timestamp and cached value, plus the TTL.  The md5 file-name
hash is abstracted as keying by the URL itself, and a corrupted cache file
as an absent entry. -/
structure Cache where
  entries : List (String × ℚ × String)
  ttl : ℚ
deriving Repr, DecidableEq

/-- `Cache.get`: a missing key is a miss; an entry older than the TTL is
removed (`unlink`) and is a miss; otherwise the stored value is
returned. -/
def cacheGet (c : Cache) (now : ℚ) (key : String) : Option String × Cache :=
  match c.entries.find? (fun e => e.1 = key) with
  | none => (none, c)
  | some (_, ts, v) =>
    if c.ttl < now - ts then
      (none, ⟨c.entries.filter (fun e => e.1 ≠ key), c.ttl⟩)
    else (some v, c)

/-- `Cache.set`: write the entry file for the key with the current
timestamp. -/
def cacheSet (c : Cache) (now : ℚ) (key v : String) : Cache :=
  ⟨c.entries.filter (fun e => e.1 ≠ key) ++ [(key, now, v)], c.ttl⟩

/-- `get_cached`: re-read the global configuration; when
`http.cache_enabled` is false return `None` without touching the cache,
else look the URL up. -/
def getCached (cfg : GlobalConfig) (c : Cache) (now : ℚ) (url : String) :
    Option String × Cache :=
  if cfg.httpCacheEnabled = false then (none, c) else cacheGet c now url

/-- `set_cached`: re-read the global configuration; when
`http.cache_enabled` is false write nothing, else store the response. -/
def setCached (cfg : GlobalConfig) (c : Cache) (now : ℚ) (url html : String) :
    Cache :=
  if cfg.httpCacheEnabled = false then c else cacheSet c now url html

/-- `HttpClient.get`: the per-call cache flag is `use_cache` when passed,
else the client's constructor flag; when it is on, consult `get_cached`
before the request and populate via `set_cached` after a successful one.
`network` stands for `_make_request` (rate limit, retries, HTTP). -/
def httpGet (cfg : GlobalConfig) (clientCacheEnabled : Bool)
    (useCache : Option Bool) (network : String → Except FetchFailure String)
    (c : Cache) (now : ℚ) (url : String) :
    Except FetchFailure String × Cache :=
  let cacheEnabled := useCache.getD clientCacheEnabled
  if cacheEnabled then
    match getCached cfg c now url with
    | (some content, c2) => (.ok content, c2)
    | (none, c2) =>
      match network url with
      | .ok content => (.ok content, setCached cfg c2 now url content)
      | .error e => (.error e, c2)
  else
    match network url with
    | .ok content => (.ok content, c)
    | .error e => (.error e, c)

end Caching

/-- **C9** — Caching is double-gated by the global configuration
(`utils/cache.py`, `fetch/http_client.py`): `get_cached` and `set_cached`
re-read the globally loaded configuration on every call, so when its
`http.cache_enabled` flag is false, `get_cached` returns `None`,
`set_cached` writes nothing, and `HttpClient.get` performs no caching at
all — the response is exactly the network fetch and the cache directory is
left unchanged — even when the client was constructed with
`cache_enabled=True` or the call passes `use_cache=True`. -/
theorem C9_cache_globally_gated (cfg : Caching.GlobalConfig)
    (clientCacheEnabled : Bool) (useCache : Option Bool)
    (network : String → Except Caching.FetchFailure String)
    (c : Caching.Cache) (now : ℚ) (url : String)
    (h : cfg.httpCacheEnabled = false) :
    Caching.getCached cfg c now url = (none, c) ∧
      (∀ html, Caching.setCached cfg c now url html = c) ∧
      Caching.httpGet cfg clientCacheEnabled useCache network c now url =
        (network url, c) := by
  refine ⟨by simp [Caching.getCached, h],
    fun html => by simp [Caching.setCached, h], ?_⟩
  unfold Caching.httpGet
  by_cases he : useCache.getD clientCacheEnabled = true
  · simp only [he, if_pos]
    simp only [Caching.getCached, h, if_pos]
    cases network url with
    | ok content => simp [Caching.setCached, h]
    | error e => simp
  · simp only [Bool.not_eq_true] at he
    simp only [he, Bool.false_eq_true, if_false]
    cases network url with
    | ok content => rfl
    | error e => rfl

/-- Witness for C9 at a concrete call: global flag off, client flag on,
`use_cache=True`, a successful network fetch, one fresh cache entry. -/
theorem C9_cache_globally_gated_witness :
    Caching.getCached ⟨false⟩ ⟨[("k", 0, "v")], 3600⟩ 10 "u" =
        (none, ⟨[("k", 0, "v")], 3600⟩) ∧
      (∀ html, Caching.setCached ⟨false⟩ ⟨[("k", 0, "v")], 3600⟩ 10 "u" html =
        ⟨[("k", 0, "v")], 3600⟩) ∧
      Caching.httpGet ⟨false⟩ true (some true) (fun _ => .ok "page") 
          ⟨[("k", 0, "v")], 3600⟩ 10 "u" =
        ((fun _ => Except.ok "page") "u", ⟨[("k", 0, "v")], 3600⟩) :=
  C9_cache_globally_gated ⟨false⟩ true (some true) (fun _ => .ok "page")
    ⟨[("k", 0, "v")], 3600⟩ 10 "u" rfl
